import Mathlib

/-!
A verification development for the gzip streaming codec in `src/gz/bufread.rs`
(`GzEncoder`, `GzDecoder`, `MultiGzDecoder` and their helpers).

The underlying byte source (`R : BufRead`) is modelled as a list of script
items (`Src`): chunks of available bytes, would-block events, and other
errors.  The deflate compressor/decompressor and the CRC primitive are
external collaborators of the repository; the deflate codecs are modelled as
oracles (scripts of responses) and the CRC primitive is modelled from the
spec.  Everything else is translated directly from the source.
-/

set_option maxRecDepth 4000

/-- I/O error kinds distinguished by the code under verification. -/
inductive ErrKind
  | wouldBlock
  | unexpectedEof
  | invalidInput
  | other
deriving DecidableEq

/-- An `io::Error`: a kind plus its message. -/
structure IoErr where
  kind : ErrKind
  msg : String
deriving DecidableEq

/-- `corrupt()` from the source. -/
def corruptErr : IoErr :=
  ⟨.invalidInput, "corrupt gzip stream does not have a matching checksum"⟩

/-- `bad_header()` from the source. -/
def badHeaderErr : IoErr := ⟨.invalidInput, "invalid gzip header"⟩

/-- `io::ErrorKind::WouldBlock.into()`. -/
def wouldBlockErr : IoErr := ⟨.wouldBlock, ""⟩

/-- `io::ErrorKind::UnexpectedEof.into()`. -/
def uEofErr : IoErr := ⟨.unexpectedEof, ""⟩

/-- A generic fatal error of kind `Other`, used by counterexample runs. -/
def otherErr : IoErr := ⟨.other, ""⟩

/-- Modelled from the spec: one CRC-32 step of the reflected ISO-3309
polynomial 0xEDB88320 (the CRC primitive lives in the `crc` module, outside
`src/`). -/
def crcStep (r : Nat) : Nat :=
  if r % 2 = 1 then (r >>> 1) ^^^ 0xEDB88320 else r >>> 1

/-- Modelled from the spec: feed one byte into the CRC-32 register. -/
def crcByte (r b : Nat) : Nat :=
  crcStep (crcStep (crcStep (crcStep (crcStep (crcStep (crcStep (crcStep
    (r ^^^ (b % 256)))))))))

/-- Modelled from the spec: CRC-32 of a byte list (init and final XOR
0xFFFFFFFF). -/
def crc32 (bs : List Nat) : Nat :=
  (bs.foldl crcByte 0xFFFFFFFF) ^^^ 0xFFFFFFFF

/-- Modelled from the spec: FLG bit for the optional header CRC (the
constants live in the gz module, outside `src/`). -/
def FHCRC : Nat := 2

/-- Modelled from the spec: FLG bit for the optional extra field. -/
def FEXTRA : Nat := 4

/-- Modelled from the spec: FLG bit for the optional filename. -/
def FNAME : Nat := 8

/-- Modelled from the spec: FLG bit for the optional comment. -/
def FCOMMENT : Nat := 16

/-- Modelled from the spec: the parsed gzip header record (`GzHeader` is
declared in the gz module, outside `src/`). -/
structure GzHeader where
  extra : Option (List Nat)
  filename : Option (List Nat)
  comment : Option (List Nat)
  operating_system : Nat
  mtime : Nat
deriving DecidableEq

/-- One step of behaviour of the underlying `BufRead` byte source: a window
of available bytes, a would-block signal, or another error. -/
inductive SrcItem
  | chunk (bs : List Nat)
  | wb
  | fail (e : IoErr)
deriving DecidableEq

/-- The underlying byte source: a script of behaviours. -/
abbrev Src := List SrcItem

/-- `Read::read` on the underlying source: serve up to `n` bytes from the
current chunk (an exhausted script is end-of-stream and returns 0 bytes);
error items are raised once and consumed. -/
def srcRead (src : Src) (n : Nat) : (Except IoErr (List Nat)) × Src :=
  match src with
  | [] => (.ok [], [])
  | .chunk bs :: rest =>
      let t := bs.take n
      let leftover := bs.drop n
      (.ok t, if leftover = [] then rest else .chunk leftover :: rest)
  | .wb :: rest => (.error wouldBlockErr, rest)
  | .fail e :: rest => (.error e, rest)

/-- `BufRead::fill_buf` on the underlying source: peek at the buffered
bytes without consuming them; error items are consumed. -/
def fillBuf (src : Src) : (Except IoErr (List Nat)) × Src :=
  match src with
  | [] => (.ok [], [])
  | .chunk bs :: rest => (.ok bs, .chunk bs :: rest)
  | .wb :: rest => (.error wouldBlockErr, rest)
  | .fail e :: rest => (.error e, rest)

/-- All data bytes still carried by a source script. -/
def srcData (src : Src) : List Nat :=
  match src with
  | [] => []
  | .chunk bs :: rest => bs ++ srcData rest
  | _ :: rest => srcData rest

/-- Size measure of a source script (bytes plus items), used for
termination. -/
def srcSize (src : Src) : Nat :=
  match src with
  | [] => 0
  | .chunk bs :: rest => bs.length + 1 + srcSize rest
  | _ :: rest => 1 + srcSize rest

/-- The state of `CrcReader::new(Buffer::new(buf, reader))` used while
parsing a header: the replay cursor (`io::Take` over `io::Cursor`), the
growable replay vector, the underlying source, and the bytes that have
flowed through the CRC adapter. -/
structure CrcBuf where
  cursorPos : Nat
  takeLimit : Nat
  replay : List Nat
  src : Src
  consumed : List Nat
deriving DecidableEq

/-- Termination measure for header parsing: unread replay bytes plus the
size of the source script. -/
def CrcBuf.mu (st : CrcBuf) : Nat :=
  (st.takeLimit - st.cursorPos) + srcSize st.src

/-- `Buffer::read` composed with the CRC adapter: serve bytes out of the
replay buffer first; if the request is not fully satisfied, pull from the
underlying source, treat a zero-byte inner read as `bad_header()`, and
append freshly pulled bytes to the replay vector.  Bytes delivered to the
caller are recorded in `consumed` (the CRC accumulation). -/
def crcBufRead (st : CrcBuf) (n : Nat) : (Except IoErr (List Nat)) × CrcBuf :=
  let c := min n (st.takeLimit - st.cursorPos)
  let first := (st.replay.drop st.cursorPos).take c
  let st1 := { st with cursorPos := st.cursorPos + c }
  if n ≤ c then
    (.ok first, { st1 with consumed := st1.consumed ++ first })
  else
    match srcRead st1.src (n - c) with
    | (.error e, src') => (.error e, { st1 with src := src' })
    | (.ok [], src') => (.error badHeaderErr, { st1 with src := src' })
    | (.ok (b :: bs), src') =>
        let out := first ++ b :: bs
        (.ok out,
         { st1 with
            src := src'
            replay := st1.replay ++ b :: bs
            consumed := st1.consumed ++ out })

/-- Sequencing for the fallible, state-passing header parser. -/
def andThen (r : (Except IoErr α) × CrcBuf)
    (f : α → CrcBuf → (Except IoErr β) × CrcBuf) :
    (Except IoErr β) × CrcBuf :=
  match r with
  | (.error e, st) => (.error e, st)
  | (.ok a, st) => f a st

/-- The loop of `Read::read_exact`: repeatedly read into the remaining
slice; a zero-byte read ends the loop and leaves the buffer unfilled,
which yields `UnexpectedEof`.  Each successful iteration delivers at least
one byte, so the loop runs at most `remaining` times; `fuel` is that bound
(its exhaustion branch coincides with the `remaining = 0` exit and is
unreachable from `readExact`). -/
def readExactGo : Nat → CrcBuf → Nat → List Nat →
    (Except IoErr (List Nat)) × CrcBuf
  | 0, st, _, acc => (.ok acc, st)
  | fuel + 1, st, remaining, acc =>
      if remaining = 0 then (.ok acc, st)
      else
        match crcBufRead st remaining with
        | (.ok [], st') => (.error uEofErr, st')
        | (.ok (b :: bs), st') =>
            readExactGo fuel st' (remaining - (b :: bs).length) (acc ++ b :: bs)
        | (.error e, st') => (.error e, st')

/-- `read_exact` of `n` bytes through the CRC adapter. -/
def readExact (st : CrcBuf) (n : Nat) : (Except IoErr (List Nat)) × CrcBuf :=
  readExactGo n st n []

/-- `read_le_u16` from the source: two bytes, little-endian. -/
def read_le_u16 (st : CrcBuf) : (Except IoErr Nat) × CrcBuf :=
  andThen (readExact st 2) fun b st =>
    (.ok ((b.getD 0 0) ||| ((b.getD 1 0) <<< 8)), st)

/-- The `for byte in crc_reader.by_ref().bytes()` loop used for the
filename and comment fields: read one byte at a time until a zero byte; a
zero-byte read ends the iterator; errors propagate.  Each iteration
either returns or consumes one byte of `CrcBuf.mu`, so `scanZero` passes a
fuel bound whose exhaustion branch is unreachable. -/
def scanZeroF : Nat → CrcBuf → List Nat → (Except IoErr (List Nat)) × CrcBuf
  | 0, st, _ => (.error otherErr, st)
  | fuel + 1, st, acc =>
      match crcBufRead st 1 with
      | (.error e, st') => (.error e, st')
      | (.ok [], st') => (.ok acc, st')
      | (.ok (b :: _), st') =>
          if b = 0 then (.ok acc, st')
          else scanZeroF fuel st' (acc ++ [b])

/-- The filename/comment scan, with sufficient fuel. -/
def scanZero (st : CrcBuf) (acc : List Nat) :
    (Except IoErr (List Nat)) × CrcBuf :=
  scanZeroF (st.mu + 1) st acc

/-- `read_gz_header` from the source: wrap the reader in a fresh CRC
adapter, read the 10 fixed bytes, validate the magic and compression
method, then the optional extra / filename / comment fields, then the
optional header CRC (low 16 bits of the CRC-32 accumulated over all
preceding header bytes). -/
def read_gz_header (st : CrcBuf) : (Except IoErr GzHeader) × CrcBuf :=
  andThen (readExact st 10) fun hdr st =>
    if hdr.getD 0 0 ≠ 0x1f ∨ hdr.getD 1 0 ≠ 0x8b then (.error badHeaderErr, st)
    else if hdr.getD 2 0 ≠ 8 then (.error badHeaderErr, st)
    else
      andThen
        (if (hdr.getD 3 0) &&& FEXTRA ≠ 0 then
          andThen (read_le_u16 st) fun xlen st =>
            andThen (readExact st xlen) fun ex st => (.ok (some ex), st)
        else (.ok none, st)) fun extra st =>
      andThen
        (if (hdr.getD 3 0) &&& FNAME ≠ 0 then
          andThen (scanZero st []) fun nm st => (.ok (some nm), st)
        else (.ok none, st)) fun filename st =>
      andThen
        (if (hdr.getD 3 0) &&& FCOMMENT ≠ 0 then
          andThen (scanZero st []) fun cm st => (.ok (some cm), st)
        else (.ok none, st)) fun comment st =>
      let mtime := (hdr.getD 4 0) ||| ((hdr.getD 5 0) <<< 8) |||
        ((hdr.getD 6 0) <<< 16) ||| ((hdr.getD 7 0) <<< 24)
      let os := hdr.getD 9 0
      if (hdr.getD 3 0) &&& FHCRC ≠ 0 then
        let calced := (crc32 st.consumed) % 65536
        andThen (read_le_u16 st) fun stored st =>
          if calced ≠ stored then (.error corruptErr, st)
          else (.ok ⟨extra, filename, comment, os, mtime⟩, st)
      else (.ok ⟨extra, filename, comment, os, mtime⟩, st)

/-- The decoder's state tag (`GzState` from the source). -/
inductive GzState
  | Header (buf : List Nat)
  | Body
  | Finished (pos : Nat) (buf : List Nat)
  | Err (e : IoErr)
  | End
deriving DecidableEq

/-- One response of the deflate decompressor stack (`CrcReader` over
`DeflateDecoder`), which the repository treats as an external collaborator:
uncompressed bytes (`[]` is deflate end-of-stream), or an error. -/
inductive BodyItem
  | bytes (bs : List Nat)
  | fail (e : IoErr)
deriving DecidableEq

/-- Pull from the deflate decompressor oracle: an exhausted script keeps
returning end-of-stream. -/
def bodyRead (body : List BodyItem) (n : Nat) :
    (Except IoErr (List Nat)) × List BodyItem :=
  match body with
  | [] => (.ok [], [])
  | .bytes bs :: rest => (.ok (bs.take n), rest)
  | .fail e :: rest => (.error e, rest)

/-- The decoder (`GzDecoder` from the source).  `crc` holds the plaintext
bytes that have flowed through the CRC adapter since the start of the
current member.  `dresets` counts calls to the deflate decompressor's
`reset_data`, and `everParsed` / `sinceReset` record whether a header has
been successfully parsed (ever / since the last member-boundary reset) —
ghost instrumentation used only by theorems. -/
structure Dec where
  inner : GzState
  header : Option GzHeader
  crc : List Nat
  body : List BodyItem
  src : Src
  multi : Bool
  dresets : Nat
  everParsed : Bool
  sinceReset : Bool
deriving DecidableEq

/-- The CRC adapter's `sum()` for the decoder. -/
def Dec.crcSum (s : Dec) : Nat := crc32 s.crc

/-- The CRC adapter's `amount()` for the decoder. -/
def Dec.crcAmount (s : Dec) : Nat := s.crc.length % (2 ^ 32)

/-- `finish` from the source: decode the 8-byte trailer as little-endian
CRC-32 (bytes 0..3) and ISIZE (bytes 4..7). -/
def finish (buf : List Nat) : Nat × Nat :=
  ((buf.getD 0 0) ||| ((buf.getD 1 0) <<< 8) ||| ((buf.getD 2 0) <<< 16) |||
     ((buf.getD 3 0) <<< 24),
   (buf.getD 4 0) ||| ((buf.getD 5 0) <<< 8) ||| ((buf.getD 6 0) <<< 16) |||
     ((buf.getD 7 0) <<< 24))

/-- `GzDecoder::new` from the source: immediately attempt to parse a gzip
header; on success start in `Body` with the header stored; on would-block
or unexpected-EOF start in `Header` with the replay buffer retained; on
any other error latch it in `Err`. -/
def mkDecoder (src : Src) (body : List BodyItem) : Dec :=
  match read_gz_header ⟨0, 0, [], src, []⟩ with
  | (.ok h, st') =>
      ⟨.Body, some h, [], body, st'.src, false, 0, true, true⟩
  | (.error e, st') =>
      if e.kind = .wouldBlock ∨ e.kind = .unexpectedEof then
        ⟨.Header st'.replay, none, [], body, st'.src, false, 0, false, false⟩
      else
        ⟨.Err e, none, [], body, st'.src, false, 0, false, false⟩

/-- `MultiGzDecoder::new` from the source: a decoder with `multi = true`. -/
def mkMultiDecoder (src : Src) (body : List BodyItem) : Dec :=
  { mkDecoder src body with multi := true }

/-- Write `bs` into `buf` starting at `pos` (the effect of
`read(&mut buf[pos..])` on the trailer array). -/
def writeAt (buf : List Nat) (pos : Nat) (bs : List Nat) : List Nat :=
  buf.take pos ++ bs.take (buf.length - pos) ++ buf.drop (pos + bs.length)

instance {ε α : Type} [DecidableEq ε] [DecidableEq α] :
    DecidableEq (Except ε α) := fun a b =>
  match a, b with
  | .ok x, .ok y =>
      if h : x = y then .isTrue (by rw [h]) else .isFalse (by simp [h])
  | .error x, .error y =>
      if h : x = y then .isTrue (by rw [h]) else .isFalse (by simp [h])
  | .ok _, .error _ => .isFalse (by simp)
  | .error _, .ok _ => .isFalse (by simp)

/-- Outcome of one iteration of the decoder's `read` loop: either return
to the caller, or continue looping with an updated decoder. -/
inductive StepRes
  | done (r : Except IoErr Nat) (s : Dec)
  | cont (s : Dec)
deriving DecidableEq

/-- One iteration of `GzDecoder::read`'s loop, combining the state match
with the `Next` transition it selects (`n` is the destination length). -/
def readStep (s : Dec) (n : Nat) : StepRes :=
  match s.inner with
  | .Header buf =>
      match read_gz_header ⟨0, buf.length, buf, s.src, []⟩ with
      | (.ok h, st') =>
          .cont { s with inner := .Body, header := some h, src := st'.src,
                         everParsed := true, sinceReset := true }
      | (.error e, st') =>
          if e.kind = .wouldBlock ∨ e.kind = .unexpectedEof then
            .done (.error wouldBlockErr)
              { s with inner := .Header st'.replay, src := st'.src }
          else
            .done (.error e) { s with inner := .End, src := st'.src }
  | .Body =>
      if n = 0 then .done (.ok 0) s
      else
        match bodyRead s.body n with
        | (.ok [], body') =>
            .cont { s with inner := .Finished 0 (List.replicate 8 0),
                           body := body' }
        | (.ok (b :: bs), body') =>
            .done (.ok (b :: bs).length)
              { s with body := body', crc := s.crc ++ b :: bs }
        | (.error e, body') => .done (.error e) { s with body := body' }
  | .Finished pos buf =>
      if pos < buf.length then
        match srcRead s.src (buf.length - pos) with
        | (.ok [], src') =>
            .done (.error uEofErr) { s with inner := .End, src := src' }
        | (.ok (b :: bs), src') =>
            .cont { s with inner := .Finished (pos + (b :: bs).length)
                             (writeAt buf pos (b :: bs)),
                           src := src' }
        | (.error e, src') =>
            if e.kind = .wouldBlock then .done (.error e) { s with src := src' }
            else .done (.error e) { s with inner := .End, src := src' }
      else
        if (finish buf).1 ≠ s.crcSum then
          .done (.error corruptErr) { s with inner := .End }
        else if (finish buf).2 ≠ s.crcAmount then
          .done (.error corruptErr) { s with inner := .End }
        else if !s.multi then
          .cont { s with inner := .End }
        else
          match fillBuf s.src with
          | (.ok [], src') => .cont { s with inner := .End, src := src' }
          | (.ok (_ :: _), src') =>
              .cont { s with inner := .Header [], header := none, crc := [],
                             dresets := s.dresets + 1, sinceReset := false,
                             src := src' }
          | (.error e, src') =>
              if e.kind = .wouldBlock then
                .done (.error e) { s with src := src' }
              else .done (.error e) { s with inner := .End, src := src' }
  | .Err e => .done (.error e) { s with inner := .End }
  | .End => .done (.ok 0) s

/-- `GzDecoder::read`: iterate `readStep` until it returns (`fuel` bounds
the number of loop iterations; `none` means fuel ran out). -/
def readLoop (fuel : Nat) (s : Dec) (n : Nat) :
    Option ((Except IoErr Nat) × Dec) :=
  match fuel with
  | 0 => none
  | fuel + 1 =>
      match readStep s n with
      | .done r s' => some (r, s')
      | .cont s' => readLoop fuel s' n

/-- One response of the deflate compressor stack (`DeflateEncoder` over
`CrcReader`), an external collaborator: `bytes out plain` delivers
compressed bytes `out` while having pulled plaintext `plain` through the
CRC adapter (`out = []` is compressor end-of-stream); `fail` is an error. -/
inductive EncItem
  | bytes (out : List Nat) (plain : List Nat)
  | fail (e : IoErr)
deriving DecidableEq

/-- Pull from the deflate compressor oracle. -/
def encInnerRead (items : List EncItem) (m : Nat) :
    (Except IoErr (List Nat × List Nat)) × List EncItem :=
  match items with
  | [] => (.ok ([], []), [])
  | .bytes out plain :: rest => (.ok (out.take m, plain), rest)
  | .fail e :: rest => (.error e, rest)

/-- The encoder (`GzEncoder` from the source): the pre-built header bytes,
the phase cursor `pos`, the `eof` flag, the plaintext bytes that have
flowed through the CRC adapter, and the compressor oracle. -/
structure Enc where
  header : List Nat
  pos : Nat
  eof : Bool
  plain : List Nat
  inner : List EncItem
deriving DecidableEq

/-- `copy` from the source: copy from `src[pos..]` into a destination of
length `n`, returning the copied bytes and the advanced cursor. -/
def copy (n : Nat) (src : List Nat) (pos : Nat) : List Nat × Nat :=
  let m := min n (src.length - pos)
  ((src.drop pos).take m, pos + m)

/-- Little-endian bytes of a 32-bit value. -/
def le32 (v : Nat) : List Nat :=
  [v % 256, (v >>> 8) % 256, (v >>> 16) % 256, (v >>> 24) % 256]

/-- `GzEncoder::read_footer` from the source: once `pos == 8` return 0;
otherwise copy from the 8-byte trailer (CRC-32 then byte count, both
little-endian) starting at `pos`.  Returns (result, bytes written, state). -/
def read_footer (s : Enc) (n : Nat) : (Except IoErr Nat) × List Nat × Enc :=
  if s.pos = 8 then (.ok 0, [], s)
  else
    let sum := crc32 s.plain
    let amt := s.plain.length % (2 ^ 32)
    let arr := [sum % 256, (sum >>> 8) % 256, (sum >>> 16) % 256,
      (sum >>> 24) % 256, amt % 256, (amt >>> 8) % 256, (amt >>> 16) % 256,
      (amt >>> 24) % 256]
    let out := (copy n arr s.pos).1
    (.ok out.length, out, { s with pos := (copy n arr s.pos).2 })

/-- `GzEncoder::read` from the source: header phase, then the inner
compressor, then (on compressor end-of-stream) the trailer phase.
Returns (result, bytes written into the destination, state). -/
def encRead (s : Enc) (n : Nat) : (Except IoErr Nat) × List Nat × Enc :=
  if s.eof then read_footer s n
  else
    let hout := if s.pos < s.header.length then (copy n s.header s.pos).1 else []
    let pos1 := if s.pos < s.header.length then (copy n s.header s.pos).2 else s.pos
    let amt := hout.length
    let s1 : Enc := { s with pos := pos1 }
    if s.pos < s.header.length ∧ amt = n then (.ok amt, hout, s1)
    else
      match encInnerRead s1.inner (n - amt) with
      | (.error e, items') => (.error e, hout, { s1 with inner := items' })
      | (.ok (out, plain), items') =>
          let s2 : Enc := { s1 with inner := items', plain := s1.plain ++ plain }
          if out.length = 0 then
            let f := read_footer { s2 with eof := true, pos := 0 } (n - amt)
            (f.1, hout ++ f.2.1, f.2.2)
          else (.ok (amt + out.length), hout ++ out, s2)

/-- Decoder states reachable in a lifetime: a freshly constructed decoder
(single- or multi-member), or the result of any completed `read` call on a
reachable decoder. -/
inductive Reachable : Dec → Prop
  | new (src : Src) (body : List BodyItem) : Reachable (mkDecoder src body)
  | newMulti (src : Src) (body : List BodyItem) :
      Reachable (mkMultiDecoder src body)
  | step (s : Dec) (fuel n : Nat) (r : Except IoErr Nat) (s' : Dec) :
      Reachable s → readLoop fuel s n = some (r, s') → Reachable s'

/-- A valid single-member gzip header: magic, CM = 8, FLG = 0, MTIME = 0,
XFL = 0, OS = 255. -/
def hdr10 : List Nat := [0x1f, 0x8b, 8, 0, 0, 0, 0, 0, 0, 255]

/-- Source script for the C2 counterexample: just a valid header. -/
def c2src : Src := [.chunk hdr10]

/-- Deflate oracle for the C2 counterexample: the decompressor fails twice
with the same fatal error. -/
def c2body : List BodyItem := [.fail otherErr, .fail otherErr]

/-- Source script for the C5 counterexample: a valid empty member (header,
then the 8 zero trailer bytes), then one byte of a second member, then
would-block. -/
def c5src : Src :=
  [.chunk (hdr10 ++ [0, 0, 0, 0, 0, 0, 0, 0] ++ [0x1f]), .wb]

/-- Deflate oracle for the C5 counterexample: the body is empty. -/
def c5body : List BodyItem := [.bytes []]

/-- Source script for the C7 counterexample: a valid header. -/
def c7src : Src := [.chunk hdr10]

/-- Deflate oracle for the C7 counterexample: one byte of plaintext. -/
def c7body : List BodyItem := [.bytes [97]]

/-- Source script for the C6 run: five header bytes, then end-of-stream. -/
def c6src : Src := [.chunk [0x1f, 0x8b, 8, 0, 0]]

/-- **C1.** For every decoder in state `Finished` with all 8 trailer bytes
collected, the next read step decodes the trailer via `finish` (little-endian
CRC-32 in bytes 0..3, ISIZE in bytes 4..7); if the decoded CRC differs from
the CRC adapter's `sum()` or the decoded ISIZE differs from its `amount()`,
the step returns the `corrupt` error (latching `End`); if both match and
`multi` is false, the decoder transitions to `End`. -/
theorem c1_trailer_validation (s : Dec) (buf : List Nat) (n : Nat)
    (hs : s.inner = .Finished 8 buf) (hlen : buf.length = 8) :
    ((finish buf).1 ≠ s.crcSum →
      readStep s n = .done (.error corruptErr) { s with inner := .End }) ∧
    ((finish buf).1 = s.crcSum → (finish buf).2 ≠ s.crcAmount →
      readStep s n = .done (.error corruptErr) { s with inner := .End }) ∧
    ((finish buf).1 = s.crcSum → (finish buf).2 = s.crcAmount →
      s.multi = false → readStep s n = .cont { s with inner := .End }) := by
  refine ⟨fun h1 => ?_, fun h1 h2 => ?_, fun h1 h2 h3 => ?_⟩
  · simp [readStep, hs, hlen, h1]
  · simp [readStep, hs, hlen, h1, h2]
  · simp [readStep, hs, hlen, h1, h2, h3]

theorem c1_trailer_validation_witness :
    readStep ⟨.Finished 8 [1, 0, 0, 0, 0, 0, 0, 0], none, [], [], [], false,
        0, false, false⟩ 3 =
      .done (.error corruptErr)
        ⟨.End, none, [], [], [], false, 0, false, false⟩ :=
  (c1_trailer_validation _ [1, 0, 0, 0, 0, 0, 0, 0] 3 rfl rfl).1 (by decide)

/-- **C4.** For every decoder with `multi = true` whose trailer has just
validated, the step peeks at the underlying buffered source: if it is empty
the decoder transitions to `End`; if it is non-empty the decoder resets the
CRC adapter, resets the deflate decompressor's internal state (`dresets`),
clears the stored header, and transitions to `Header` with a new empty
replay buffer, continuing the read loop (`cont`). -/
theorem c4_multi_continuation (s : Dec) (buf : List Nat) (n : Nat)
    (src' : Src)
    (hs : s.inner = .Finished 8 buf) (hlen : buf.length = 8)
    (hcrc : (finish buf).1 = s.crcSum)
    (hamt : (finish buf).2 = s.crcAmount)
    (hm : s.multi = true) :
    (fillBuf s.src = (.ok [], src') →
      readStep s n = .cont { s with inner := .End, src := src' }) ∧
    (∀ b bs, fillBuf s.src = (.ok (b :: bs), src') →
      readStep s n = .cont { s with
                              inner := .Header [], header := none, crc := [],
                              dresets := s.dresets + 1, sinceReset := false,
                              src := src' }) := by
  constructor
  · intro h
    simp [readStep, hs, hlen, hcrc, hamt, hm, h]
  · intro b bs h
    simp [readStep, hs, hlen, hcrc, hamt, hm, h]

theorem c4_multi_continuation_witness :
    readStep ⟨.Finished 8 [0, 0, 0, 0, 0, 0, 0, 0], some ⟨none, none, none,
        255, 0⟩, [], [], [.chunk [1]], true, 0, true, true⟩ 3 =
      .cont ⟨.Header [], none, [], [], [.chunk [1]], true, 1, true, false⟩ :=
  (c4_multi_continuation
    ⟨.Finished 8 [0, 0, 0, 0, 0, 0, 0, 0], some ⟨none, none, none, 255, 0⟩,
      [], [], [.chunk [1]], true, 0, true, true⟩
    [0, 0, 0, 0, 0, 0, 0, 0] 3 [.chunk [1]]
    rfl rfl (by decide) (by decide) rfl).2 1 [] rfl

/-- **C6.** The claim says a zero-byte inner read during header parsing is
treated as an unexpected EOF and surfaced as a retryable would-block with
the `Header` state preserved.  The code instead returns the fatal
`bad_header()` error (`InvalidInput`), which `GzDecoder::new` latches into
`Err` and the first read latches into `End`: on a source delivering five
header bytes and then end-of-stream, construction stores `bad_header()` and
the first read returns it fatally.  (The `UnexpectedEof` match arms in
`GzDecoder::new` and the `Header` arm of `read` are unreachable as a
consequence, which shows the claim's behaviour was the intent.) -/
theorem c6_zero_byte_read_latches_bad_header :
    (mkDecoder c6src []).inner = .Err badHeaderErr ∧
    (readLoop 1 (mkDecoder c6src []) 1).map (fun p => (p.1, p.2.inner)) =
      some (.error badHeaderErr, .End) ∧
    badHeaderErr.kind ≠ .wouldBlock ∧ badHeaderErr.kind ≠ .unexpectedEof :=
  ⟨by rfl, by rfl, by decide, by decide⟩

theorem copy_fst_length (n : Nat) (l : List Nat) (p : Nat) :
    ((copy n l p).1).length = min n (l.length - p) := by
  simp only [copy, List.length_take, List.length_drop]
  omega

/-- **C3.** An encoder read call fills the destination in phase order:
while `eof` is false and `pos < header.len()` it copies header bytes
starting at `pos`; when the inner compressor returns 0 it sets `eof`,
resets `pos` to 0, and emits a trailer consisting of the CRC-32 sum
little-endian followed by the plaintext byte count (mod 2^32)
little-endian; once all 8 trailer bytes have been emitted, every
subsequent read returns 0. -/
theorem c3_encoder_phase_order (s : Enc) (n : Nat) :
    (s.eof = false → s.pos < s.header.length →
      ∃ t, (encRead s n).2.1 =
        (s.header.drop s.pos).take (min n (s.header.length - s.pos)) ++ t) ∧
    (∀ plain it', s.eof = false →
      ¬(s.pos < s.header.length ∧ min n (s.header.length - s.pos) = n) →
      encInnerRead s.inner (n - min n (s.header.length - s.pos)) =
        (.ok ([], plain), it') →
      encRead s n = (.ok (min (n - min n (s.header.length - s.pos)) 8),
        (s.header.drop s.pos).take (min n (s.header.length - s.pos)) ++
          (le32 (crc32 (s.plain ++ plain)) ++
            le32 ((s.plain ++ plain).length % 2 ^ 32)).take
            (n - min n (s.header.length - s.pos)),
        ⟨s.header, min (n - min n (s.header.length - s.pos)) 8, true,
          s.plain ++ plain, it'⟩)) ∧
    (s.eof = true → s.pos = 8 → encRead s n = (.ok 0, [], s)) := by
  refine ⟨?_, ?_, ?_⟩
  · intro heof hp
    simp only [encRead, heof, Bool.false_eq_true, if_false, hp, if_true]
    have hc : (copy n s.header s.pos).1 =
        (s.header.drop s.pos).take (min n (s.header.length - s.pos)) := by
      simp [copy]
    rw [hc]
    split
    · exact ⟨[], by simp⟩
    · rcases h2 : encInnerRead s.inner
          (n - ((s.header.drop s.pos).take
            (min n (s.header.length - s.pos))).length) with ⟨r, it2⟩
      rcases r with e | ⟨out, plain2⟩
      · exact ⟨[], by simp⟩
      · dsimp only
        split
        · exact ⟨_, rfl⟩
        · exact ⟨_, rfl⟩
  · intro plain it' heof hg hinner
    by_cases hp : s.pos < s.header.length
    · have hne : ¬ min n (s.header.length - s.pos) = n := fun h => hg ⟨hp, h⟩
      simp only [encRead, heof, Bool.false_eq_true, if_false, hp, if_true,
        copy_fst_length, hne, and_false, if_false] at hinner ⊢
      rw [hinner]
      simp only [List.length_nil, reduceIte, read_footer, copy, le32,
        List.drop_zero, List.length_cons, List.length_nil, Nat.zero_add,
        Nat.sub_zero, Prod.mk.injEq]
      norm_num
    · have h0 : s.header.length - s.pos = 0 := by omega
      simp only [encRead, heof, Bool.false_eq_true, if_false, hp, if_true,
        List.length_nil, h0, Nat.min_zero, Nat.sub_zero, false_and,
        if_false] at hinner ⊢
      rw [hinner]
      simp only [List.length_nil, reduceIte, read_footer, copy, le32,
        List.drop_zero, List.length_cons, List.length_nil, Nat.zero_add,
        Nat.sub_zero, Prod.mk.injEq]
      norm_num
  · intro heof hp8
    simp [encRead, read_footer, heof, hp8]

theorem c3_encoder_phase_order_witness :
    encRead ⟨[1, 2], 8, true, [], []⟩ 5 = (.ok 0, [], ⟨[1, 2], 8, true, [], []⟩)
      ∧ ∃ t, (encRead ⟨[1, 2], 0, false, [], []⟩ 1).2.1 =
        (([1, 2] : List Nat).drop 0).take
          (min 1 (([1, 2] : List Nat).length - 0)) ++ t :=
  ⟨(c3_encoder_phase_order ⟨[1, 2], 8, true, [], []⟩ 5).2.2 rfl rfl,
   (c3_encoder_phase_order ⟨[1, 2], 0, false, [], []⟩ 1).1 rfl (by decide)⟩

/-- **C10.** For every encoder read call that copies `n > 0` header bytes
into the destination and then receives an error from the inner compressor
in the same call, the call returns that error rather than the count, while
the header cursor `pos` remains advanced past the copied bytes (here all
the way to `header.length`), so a subsequent read resumes after them: the
encoder read is not atomic on error. -/
theorem c10_encoder_error_not_atomic (s : Enc) (n : Nat) (e : IoErr)
    (it' : List EncItem)
    (heof : s.eof = false) (hpos : s.pos < s.header.length)
    (hlt : s.header.length - s.pos < n)
    (hfail : s.inner = .fail e :: it') :
    encRead s n = (.error e,
      (s.header.drop s.pos).take (s.header.length - s.pos),
      ⟨s.header, s.header.length, false, s.plain, it'⟩) ∧
    0 < ((s.header.drop s.pos).take (s.header.length - s.pos)).length := by
  have hmin : min n (s.header.length - s.pos) = s.header.length - s.pos := by
    omega
  have hne : ¬ (s.header.length - s.pos = n) := by omega
  constructor
  · simp only [encRead, heof, Bool.false_eq_true, if_false, hpos, if_true,
      copy_fst_length, hmin, copy, encInnerRead, hfail]
    rw [if_neg (by simp only [List.length_take, List.length_drop]; omega)]
    simp only [Prod.mk.injEq, Enc.mk.injEq, true_and, and_true]
    omega
  · simp only [List.length_take, List.length_drop]
    omega

theorem c10_encoder_error_not_atomic_witness :
    encRead ⟨[1, 2, 3], 1, false, [], [.fail otherErr]⟩ 5 = (.error otherErr,
      (([1, 2, 3] : List Nat).drop 1).take (([1, 2, 3] : List Nat).length - 1),
      ⟨[1, 2, 3], ([1, 2, 3] : List Nat).length, false, [], []⟩) ∧
    0 < ((([1, 2, 3] : List Nat).drop 1).take
      (([1, 2, 3] : List Nat).length - 1)).length :=
  c10_encoder_error_not_atomic ⟨[1, 2, 3], 1, false, [], [.fail otherErr]⟩ 5
    otherErr [] rfl (by decide) (by decide) rfl

theorem readStep_ok_zero (s : Dec) (n : Nat) (s' : Dec)
    (h : readStep s n = .done (.ok 0) s') (hn : 0 < n) :
    s' = s ∧ s.inner = .End := by
  rcases hs : s.inner with buf | _ | ⟨pos, buf⟩ | e0 | _
  · simp only [readStep, hs] at h
    rcases hr : read_gz_header ⟨0, buf.length, buf, s.src, []⟩ with ⟨r, st'⟩
    rw [hr] at h
    rcases r with e2 | hdr
    · dsimp only at h
      split at h
      · exact absurd h (by simp)
      · exact absurd h (by simp)
    · exact absurd h (by simp)
  · simp only [readStep, hs] at h
    split at h
    · omega
    · rcases hb : bodyRead s.body n with ⟨r, body'⟩
      rw [hb] at h
      rcases r with e2 | bs
      · exact absurd h (by simp)
      · rcases bs with _ | ⟨b, bs⟩
        · exact absurd h (by simp)
        · exact absurd h (by simp)
  · simp only [readStep, hs] at h
    split at h
    · rcases hr : srcRead s.src (buf.length - pos) with ⟨r, src'⟩
      rw [hr] at h
      rcases r with e2 | bs
      · dsimp only at h
        split at h
        · exact absurd h (by simp)
        · exact absurd h (by simp)
      · rcases bs with _ | ⟨b, bs⟩
        · exact absurd h (by simp)
        · exact absurd h (by simp)
    · split at h
      · exact absurd h (by simp)
      · split at h
        · exact absurd h (by simp)
        · split at h
          · exact absurd h (by simp)
          · rcases hf : fillBuf s.src with ⟨r, src'⟩
            rw [hf] at h
            rcases r with e2 | bs
            · dsimp only at h
              split at h
              · exact absurd h (by simp)
              · exact absurd h (by simp)
            · rcases bs with _ | ⟨b, bs⟩
              · exact absurd h (by simp)
              · exact absurd h (by simp)
  · simp only [readStep, hs] at h
    exact absurd h (by simp)
  · simp only [readStep, hs] at h
    injection h with h1 h2
    exact ⟨h2.symm, rfl⟩

theorem readLoop_ok_zero (fuel : Nat) :
    ∀ s n s', readLoop fuel s n = some (.ok 0, s') → 0 < n →
      s'.inner = .End := by
  induction fuel with
  | zero => intro s n s' h _; simp [readLoop] at h
  | succ f ih =>
      intro s n s' h hn
      simp only [readLoop] at h
      rcases hstep : readStep s n with ⟨r, s1⟩ | s1 <;> rw [hstep] at h
      · simp only [Option.some.injEq, Prod.mk.injEq] at h
        obtain ⟨h1, h2⟩ := h
        subst h1 h2
        obtain ⟨he, hi⟩ := readStep_ok_zero s n s1 hstep hn
        rw [he]
        exact hi
      · exact ih s1 n s' h hn

/-- **C7 (counterexample).** A read call with an empty destination buffer
returns `Ok(0)` from the `Body` arm without moving to `End`; a subsequent
read with a non-empty destination returns `Ok(1)`.  So a zero return is not
a permanent end-of-stream. -/
theorem c7_counterexample :
    (readLoop 1 (mkDecoder c7src c7body) 0).map (fun p => (p.1, p.2.inner)) =
      some (.ok 0, .Body) ∧
    (readLoop 1 (mkDecoder c7src c7body) 1).map (fun p => p.1) =
      some (.ok 1) :=
  ⟨by rfl, by rfl⟩

/-- **C7 (amended).** Once a read call with a *non-empty* destination
buffer has returned `Ok(0)`, the decoder is in `End`, and every subsequent
read call (of any destination size) also returns `Ok(0)` and leaves the
state unchanged. -/
theorem c7_zero_is_terminal :
    ∀ fuel s n s', readLoop fuel s n = some (.ok 0, s') → 0 < n →
      ∀ fuel2 m, readLoop (fuel2 + 1) s' m = some (.ok 0, s') := by
  intro fuel s n s' h hn fuel2 m
  have hEnd : s'.inner = .End := readLoop_ok_zero fuel s n s' h hn
  simp [readLoop, readStep, hEnd]

theorem c7_zero_is_terminal_witness :
    readLoop 1 (⟨.End, none, [], [], [], false, 0, false, false⟩ : Dec) 5 =
      some (.ok 0, ⟨.End, none, [], [], [], false, 0, false, false⟩) :=
  c7_zero_is_terminal 1 ⟨.End, none, [], [], [], false, 0, false, false⟩ 1
    ⟨.End, none, [], [], [], false, 0, false, false⟩ (by rfl) (by decide) 0 5

theorem readStep_hdrInv (s : Dec) (n : Nat) (r : Except IoErr Nat) (s' : Dec)
    (hI : s.header.isSome = s.sinceReset)
    (h : readStep s n = .done r s' ∨ readStep s n = .cont s') :
    s'.header.isSome = s'.sinceReset := by
  rcases hs : s.inner with buf | _ | ⟨pos, buf⟩ | e0 | _
  · rcases hr : read_gz_header ⟨0, buf.length, buf, s.src, []⟩ with ⟨r2, st'⟩
    rcases r2 with e2 | hdr <;> rcases h with h | h <;>
        simp only [readStep, hs, hr] at h
    · split at h
      · injection h with h1 h2
        subst h2
        simpa using hI
      · injection h with h1 h2
        subst h2
        simpa using hI
    · split at h <;> simp at h
    · simp at h
    · injection h with h2
      subst h2
      simp
  · rcases hb : bodyRead s.body n with ⟨r2, body'⟩
    rcases r2 with e2 | bs <;> rcases h with h | h <;>
        simp only [readStep, hs, hb] at h
    · split at h
      · injection h with h1 h2
        subst h2
        simpa using hI
      · injection h with h1 h2
        subst h2
        simpa using hI
    · split at h
      · simp at h
      · simp at h
    · split at h
      · injection h with h1 h2
        subst h2
        simpa using hI
      · rcases bs with _ | ⟨b, bs⟩
        · simp at h
        · injection h with h1 h2
          subst h2
          simpa using hI
    · split at h
      · simp at h
      · rcases bs with _ | ⟨b, bs⟩
        · injection h with h2
          subst h2
          simpa using hI
        · simp at h
  · rcases h with h | h <;> simp only [readStep, hs] at h <;> split at h
    · -- done, pos < len: srcRead match
      rcases hr : srcRead s.src (buf.length - pos) with ⟨r2, src'⟩
      rw [hr] at h
      rcases r2 with e2 | bs
      · dsimp only at h
        split at h <;>
          · injection h with h1 h2
            subst h2
            simpa using hI
      · rcases bs with _ | ⟨b, bs⟩
        · injection h with h1 h2
          subst h2
          simpa using hI
        · simp at h
    · -- done, pos = len: validation
      split at h
      · injection h with h1 h2
        subst h2
        simpa using hI
      · split at h
        · injection h with h1 h2
          subst h2
          simpa using hI
        · split at h
          · simp at h
          · rcases hf : fillBuf s.src with ⟨r2, src'⟩
            rw [hf] at h
            rcases r2 with e2 | bs
            · dsimp only at h
              split at h <;>
                · injection h with h1 h2
                  subst h2
                  simpa using hI
            · rcases bs with _ | ⟨b, bs⟩ <;> simp at h
    · -- cont, pos < len
      rcases hr : srcRead s.src (buf.length - pos) with ⟨r2, src'⟩
      rw [hr] at h
      rcases r2 with e2 | bs
      · dsimp only at h
        split at h <;> simp at h
      · rcases bs with _ | ⟨b, bs⟩
        · simp at h
        · injection h with h2
          subst h2
          simpa using hI
    · -- cont, pos = len
      split at h
      · simp at h
      · split at h
        · simp at h
        · split at h
          · injection h with h2
            subst h2
            simpa using hI
          · rcases hf : fillBuf s.src with ⟨r2, src'⟩
            rw [hf] at h
            rcases r2 with e2 | bs
            · dsimp only at h
              split at h <;> simp at h
            · rcases bs with _ | ⟨b, bs⟩
              · injection h with h2
                subst h2
                simpa using hI
              · injection h with h2
                subst h2
                simp
  · rcases h with h | h <;> simp only [readStep, hs] at h
    · injection h with h1 h2
      subst h2
      simpa using hI
    · simp at h
  · rcases h with h | h <;> simp only [readStep, hs] at h
    · injection h with h1 h2
      subst h2
      simpa using hI
    · simp at h

theorem readLoop_hdrInv (fuel : Nat) :
    ∀ s n r s', s.header.isSome = s.sinceReset →
      readLoop fuel s n = some (r, s') →
      s'.header.isSome = s'.sinceReset := by
  induction fuel with
  | zero => intro s n r s' _ h; simp [readLoop] at h
  | succ f ih =>
      intro s n r s' hI h
      simp only [readLoop] at h
      rcases hstep : readStep s n with ⟨r2, s1⟩ | s1 <;> rw [hstep] at h
      · simp only [Option.some.injEq, Prod.mk.injEq] at h
        obtain ⟨h1, h2⟩ := h
        subst h1 h2
        exact readStep_hdrInv s n r2 s1 hI (.inl hstep)
      · exact ih s1 n r s' (readStep_hdrInv s n (.ok 0) s1 hI (.inr hstep)) h

theorem mkDecoder_hdrInv (src : Src) (body : List BodyItem) :
    (mkDecoder src body).header.isSome = (mkDecoder src body).sinceReset := by
  rcases hr : read_gz_header ⟨0, 0, [], src, []⟩ with ⟨r, st'⟩
  rcases r with e | hdr <;> simp only [mkDecoder, hr]
  · split <;> simp
  · simp

/-- **C5 (amended).** At every reachable point in a decoder's lifetime, the
stored header is `Some` iff a header has been successfully parsed since
construction or since the most recent multistream member-boundary reset
(which clears the stored header via `header.take()`). -/
theorem c5_header_iff_parsed_since_reset (s : Dec) (h : Reachable s) :
    s.header.isSome = s.sinceReset := by
  induction h with
  | new src body => exact mkDecoder_hdrInv src body
  | newMulti src body => exact mkDecoder_hdrInv src body
  | step s fuel n r s' hreach hloop ih =>
      exact readLoop_hdrInv fuel s n r s' ih hloop

theorem c5_header_iff_parsed_since_reset_witness :
    (mkDecoder c2src c2body).header.isSome =
      (mkDecoder c2src c2body).sinceReset :=
  c5_header_iff_parsed_since_reset (mkDecoder c2src c2body)
    (.new c2src c2body)

/-- **C5 (counterexample).** A multi-member decoder that has successfully
parsed the first member's header (`everParsed = true`) but whose member
boundary reset has just cleared the stored header: after one read call that
validates the first (empty) member's trailer and begins the second header,
the header accessor returns `none` even though a header has been parsed in
this decoder's lifetime. -/
theorem c5_counterexample :
    (readLoop 6 (mkMultiDecoder c5src c5body) 1).map
      (fun p => (p.2.header.isSome, p.2.everParsed)) = some (false, true) :=
  by rfl

theorem srcRead_data_ok (src : Src) (n : Nat) (bs : List Nat) (src' : Src)
    (h : srcRead src n = (.ok bs, src')) :
    bs ++ srcData src' = srcData src := by
  rcases src with _ | ⟨cs | _ | e, rest⟩ <;>
    simp only [srcRead, Prod.mk.injEq, Except.ok.injEq] at h
  · obtain ⟨h1, h2⟩ := h
    subst h1 h2
    rfl
  · obtain ⟨h1, h2⟩ := h
    subst h1 h2
    by_cases hd : cs.drop n = []
    · rw [if_pos hd]
      have : cs.take n = cs := by
        rw [List.take_of_length_le]
        have := List.drop_eq_nil_iff.mp hd
        omega
      simp [srcData, this]
    · rw [if_neg hd]
      simp only [srcData]
      rw [← List.append_assoc, List.take_append_drop]
  · exact absurd h.1 (by simp [wouldBlockErr])
  · exact absurd h.1 (by simp)

theorem srcRead_data_err (src : Src) (n : Nat) (e : IoErr) (src' : Src)
    (h : srcRead src n = (.error e, src')) : srcData src' = srcData src := by
  rcases src with _ | ⟨cs | _ | e2, rest⟩ <;>
    simp only [srcRead, Prod.mk.injEq] at h
  · exact absurd h.1 (by simp)
  · exact absurd h.1 (by simp)
  · rw [← h.2]
    rfl
  · rw [← h.2]
    rfl

theorem crcBufRead_preserves (st : CrcBuf) (n : Nat) :
    ((crcBufRead st n).2).replay ++ srcData ((crcBufRead st n).2).src =
      st.replay ++ srcData st.src := by
  simp only [crcBufRead]
  split
  · rfl
  · rcases hsr : srcRead st.src (n - min n (st.takeLimit - st.cursorPos))
      with ⟨r2, src'⟩
    rcases r2 with e | bs
    · simp only [hsr]
      rw [srcRead_data_err _ _ _ _ hsr]
    · rcases bs with _ | ⟨b, bs⟩
      · simp only [hsr]
        have h9 := srcRead_data_ok _ _ _ _ hsr
        simp only [List.nil_append] at h9
        rw [h9]
      · simp only [hsr]
        rw [List.append_assoc, srcRead_data_ok _ _ _ _ hsr]

theorem readExactGo_preserves (fuel : Nat) :
    ∀ st remaining acc,
      ((readExactGo fuel st remaining acc).2).replay ++
        srcData ((readExactGo fuel st remaining acc).2).src =
      st.replay ++ srcData st.src := by
  induction fuel with
  | zero => intro st remaining acc; rfl
  | succ f ih =>
      intro st remaining acc
      simp only [readExactGo]
      split
      · rfl
      · have hp := crcBufRead_preserves st remaining
        rcases hr : crcBufRead st remaining with ⟨r2, st2⟩
        rw [hr] at hp
        rcases r2 with e | bs
        · exact hp
        · rcases bs with _ | ⟨b, bs⟩
          · exact hp
          · dsimp only
            rw [ih st2 (remaining - (b :: bs).length) (acc ++ b :: bs)]
            exact hp

theorem scanZeroF_preserves (fuel : Nat) :
    ∀ st acc,
      ((scanZeroF fuel st acc).2).replay ++
        srcData ((scanZeroF fuel st acc).2).src =
      st.replay ++ srcData st.src := by
  induction fuel with
  | zero => intro st acc; rfl
  | succ f ih =>
      intro st acc
      simp only [scanZeroF]
      have hp := crcBufRead_preserves st 1
      rcases hr : crcBufRead st 1 with ⟨r2, st2⟩
      rw [hr] at hp
      rcases r2 with e | bs
      · exact hp
      · rcases bs with _ | ⟨b, bs⟩
        · exact hp
        · dsimp only
          split
          · exact hp
          · rw [ih st2 (acc ++ [b])]
            exact hp

theorem readExact_preserves (st : CrcBuf) (n : Nat) :
    ((readExact st n).2).replay ++ srcData ((readExact st n).2).src =
      st.replay ++ srcData st.src :=
  readExactGo_preserves n st n []

theorem scanZero_preserves (st : CrcBuf) (acc : List Nat) :
    ((scanZero st acc).2).replay ++ srcData ((scanZero st acc).2).src =
      st.replay ++ srcData st.src :=
  scanZeroF_preserves (st.mu + 1) st acc

theorem andThen_preserves {α β : Type} (r : (Except IoErr α) × CrcBuf)
    (f : α → CrcBuf → (Except IoErr β) × CrcBuf) (v : List Nat)
    (hr : (r.2).replay ++ srcData (r.2).src = v)
    (hf : ∀ a st, st.replay ++ srcData st.src = v →
      ((f a st).2).replay ++ srcData ((f a st).2).src = v) :
    ((andThen r f).2).replay ++ srcData ((andThen r f).2).src = v := by
  rcases r with ⟨r1, st⟩
  rcases r1 with e | a
  · exact hr
  · exact hf a st hr

theorem read_le_u16_preserves (st : CrcBuf) (v : List Nat)
    (h : st.replay ++ srcData st.src = v) :
    ((read_le_u16 st).2).replay ++ srcData ((read_le_u16 st).2).src = v := by
  apply andThen_preserves
  · rw [readExact_preserves]
    exact h
  · intro a st1 h1
    exact h1

theorem read_gz_header_preserves (st : CrcBuf) :
    ((read_gz_header st).2).replay ++ srcData ((read_gz_header st).2).src =
      st.replay ++ srcData st.src := by
  unfold read_gz_header
  apply andThen_preserves
  · rw [readExact_preserves]
  · intro hdr st1 h1
    split
    · exact h1
    · split
      · exact h1
      · apply andThen_preserves
        · split
          · apply andThen_preserves
            · exact read_le_u16_preserves st1 _ h1
            · intro xlen st2 h2
              apply andThen_preserves
              · rw [readExact_preserves]
                exact h2
              · intro ex st3 h3
                exact h3
          · exact h1
        · intro extra st2 h2
          apply andThen_preserves
          · split
            · apply andThen_preserves
              · rw [scanZero_preserves]
                exact h2
              · intro nm st3 h3
                exact h3
            · exact h2
          · intro nm st3 h3
            apply andThen_preserves
            · split
              · apply andThen_preserves
                · rw [scanZero_preserves]
                  exact h3
                · intro cm st4 h4
                  exact h4
              · exact h3
            · intro cm st4 h4
              split
              · apply andThen_preserves
                · exact read_le_u16_preserves st4 _ h4
                · intro stored st5 h5
                  split
                  · exact h5
                  · exact h5
              · exact h4

/-- **C9.** Constructing a decoder immediately attempts to parse a gzip
header from the source, before any read call: on success the header
accessor already returns the parsed header and the state is `Body`; on a
would-block or unexpected-EOF error the decoder starts in `Header` whose
replay buffer retains exactly the bytes consumed so far (nothing is lost:
buffer plus remaining source data equals the original source data); on any
other error the error is stored in `Err` and is returned (and latched to
`End`) by the first subsequent read. -/
theorem c9_new_parses_immediately (src : Src) (body : List BodyItem)
    (n : Nat) :
    (∀ h st', read_gz_header ⟨0, 0, [], src, []⟩ = (.ok h, st') →
      mkDecoder src body =
        ⟨.Body, some h, [], body, st'.src, false, 0, true, true⟩) ∧
    (∀ e st', read_gz_header ⟨0, 0, [], src, []⟩ = (.error e, st') →
      ((e.kind = .wouldBlock ∨ e.kind = .unexpectedEof) →
        mkDecoder src body =
          ⟨.Header st'.replay, none, [], body, st'.src, false, 0, false,
            false⟩ ∧
        st'.replay ++ srcData st'.src = srcData src) ∧
      (e.kind ≠ .wouldBlock → e.kind ≠ .unexpectedEof →
        mkDecoder src body =
          ⟨.Err e, none, [], body, st'.src, false, 0, false, false⟩ ∧
        readStep (mkDecoder src body) n =
          .done (.error e)
            ⟨.End, none, [], body, st'.src, false, 0, false, false⟩)) := by
  constructor
  · intro h st' hr
    simp [mkDecoder, hr]
  · intro e st' hr
    constructor
    · intro hk
      constructor
      · simp [mkDecoder, hr, hk]
      · have hp := read_gz_header_preserves ⟨0, 0, [], src, []⟩
        rw [hr] at hp
        simpa using hp
    · intro hk1 hk2
      have hcond : ¬(e.kind = .wouldBlock ∨ e.kind = .unexpectedEof) := by
        rintro (h | h)
        · exact hk1 h
        · exact hk2 h
      constructor
      · simp [mkDecoder, hr, hcond]
      · simp [mkDecoder, hr, hcond, readStep]

theorem c9_new_parses_immediately_witness :
    mkDecoder [.chunk hdr10] [] =
      ⟨.Body, some ⟨none, none, none, 255, 0⟩, [], [], [], false, 0, true,
        true⟩ :=
  (c9_new_parses_immediately [.chunk hdr10] [] 1).1 ⟨none, none, none, 255, 0⟩
    ⟨0, 0, hdr10, [], hdr10⟩ (by rfl)

theorem readExactGo_zero (fuel : Nat) (st : CrcBuf) (acc : List Nat) :
    readExactGo fuel st 0 acc = (.ok acc, st) := by
  cases fuel <;> simp [readExactGo]

theorem crcBufRead_chunk (rp cs tail : List Nat) (k : Nat) (hk : 0 < k)
    (hlen : k ≤ tail.length) :
    crcBufRead ⟨0, 0, rp, [.chunk tail], cs⟩ k =
      (.ok (tail.take k),
       ⟨0, 0, rp ++ tail.take k,
        if tail.drop k = [] then [] else [.chunk (tail.drop k)],
        cs ++ tail.take k⟩) := by
  rcases tail with _ | ⟨t0, ts⟩
  · simp at hlen
    omega
  · obtain ⟨k', rfl⟩ : ∃ k', k = k' + 1 := ⟨k - 1, by omega⟩
    simp [crcBufRead, srcRead]

theorem readExact_chunk (rp cs tail : List Nat) (m : Nat)
    (hle : m ≤ tail.length) (hne : tail ≠ []) :
    readExact ⟨0, 0, rp, [.chunk tail], cs⟩ m =
      (.ok (tail.take m),
       ⟨0, 0, rp ++ tail.take m,
        if tail.drop m = [] then [] else [.chunk (tail.drop m)],
        cs ++ tail.take m⟩) := by
  rcases m with _ | m
  · simp [readExact, readExactGo, hne]
  · simp only [readExact, readExactGo, Nat.succ_ne_zero, if_false]
    rw [crcBufRead_chunk rp cs tail (m + 1) (by omega) hle]
    rcases tail with _ | ⟨t0, ts⟩
    · simp at hle
    · simp only [List.take_succ_cons, List.drop_succ_cons]
      have hlen2 : (ts.take m).length = m := by
        rw [List.length_take]
        simp only [List.length_cons] at hle
        omega
      simp only [List.length_cons, hlen2, Nat.sub_self, readExactGo_zero,
        List.nil_append]

theorem read_le_u16_chunk (rp cs : List Nat) (b0 b1 : Nat)
    (tail' : List Nat) :
    read_le_u16 ⟨0, 0, rp, [.chunk (b0 :: b1 :: tail')], cs⟩ =
      (.ok (b0 ||| (b1 <<< 8)),
       ⟨0, 0, rp ++ [b0, b1],
        if tail' = [] then [] else [.chunk tail'],
        cs ++ [b0, b1]⟩) := by
  simp only [read_le_u16]
  rw [readExact_chunk rp cs _ 2 (by simp) (by simp)]
  simp [andThen]

theorem scanZeroF_chunk (fuel : Nat) :
    ∀ rp cs acc nm tail', 0 ∉ nm → tail' ≠ [] → nm.length + 1 ≤ fuel →
    scanZeroF fuel ⟨0, 0, rp, [.chunk (nm ++ 0 :: tail')], cs⟩ acc =
      (.ok (acc ++ nm),
       ⟨0, 0, rp ++ nm ++ [0], [.chunk tail'], cs ++ nm ++ [0]⟩) := by
  induction fuel with
  | zero =>
      intro rp cs acc nm tail' _ _ hf
      omega
  | succ f ih =>
      intro rp cs acc nm tail' h0 hne hf
      rcases nm with _ | ⟨x, xs⟩
      · simp only [scanZeroF, List.nil_append]
        rw [crcBufRead_chunk rp cs (0 :: tail') 1 (by omega) (by simp)]
        simp [hne]
      · simp only [scanZeroF, List.cons_append]
        rw [crcBufRead_chunk rp cs (x :: (xs ++ 0 :: tail')) 1 (by omega)
          (by simp)]
        have hx : ¬ x = 0 := by
          intro h
          exact h0 (by simp [h])
        simp only [List.take_succ_cons, List.take_zero,
          List.drop_succ_cons, List.drop_zero, hx, if_false]
        have hne2 : ¬ (xs ++ 0 :: tail') = [] := by simp
        rw [if_neg hne2]
        have h0' : 0 ∉ xs := fun h => h0 (List.mem_cons_of_mem x h)
        rw [ih (rp ++ [x]) (cs ++ [x]) (acc ++ [x]) xs tail' h0' hne
          (by simp at hf ⊢; omega)]
        simp

theorem scanZero_chunk (rp cs acc nm tail' : List Nat) (h0 : 0 ∉ nm)
    (hne : tail' ≠ []) :
    scanZero ⟨0, 0, rp, [.chunk (nm ++ 0 :: tail')], cs⟩ acc =
      (.ok (acc ++ nm),
       ⟨0, 0, rp ++ nm ++ [0], [.chunk tail'], cs ++ nm ++ [0]⟩) := by
  apply scanZeroF_chunk _ rp cs acc nm tail' h0 hne
  simp [CrcBuf.mu, srcSize]
  omega

/-- **C8.** For every header whose FLG has the FHCRC bit set, the parser
reads 2 further bytes as a little-endian value and compares it with the
low 16 bits of the CRC-32 accumulated over exactly the header bytes
preceding those 2 bytes (the 10 fixed bytes plus the optional extra,
filename and comment sections); on mismatch parsing fails with the
`corrupt` error, and on match the parsed header record is returned. -/
theorem c8_fhcrc_check
    (flg m0 m1 m2 m3 xfl os xl0 xl1 c0 c1 : Nat)
    (ex nm cm rest exSeg nmSeg cmSeg : List Nat)
    (hflg : flg &&& FHCRC ≠ 0)
    (hex : exSeg = if flg &&& FEXTRA ≠ 0 then xl0 :: xl1 :: ex else [])
    (hxl : ex.length = xl0 ||| (xl1 <<< 8))
    (hnmseg : nmSeg = if flg &&& FNAME ≠ 0 then nm ++ [0] else [])
    (h0nm : 0 ∉ nm)
    (hcmseg : cmSeg = if flg &&& FCOMMENT ≠ 0 then cm ++ [0] else [])
    (h0cm : 0 ∉ cm) :
    (read_gz_header ⟨0, 0, [],
      [.chunk (0x1f :: 0x8b :: 8 :: flg :: m0 :: m1 :: m2 :: m3 :: xfl ::
        os :: (exSeg ++ nmSeg ++ cmSeg ++ c0 :: c1 :: rest))], []⟩).1 =
      if (crc32 (0x1f :: 0x8b :: 8 :: flg :: m0 :: m1 :: m2 :: m3 :: xfl ::
            os :: (exSeg ++ nmSeg ++ cmSeg))) % 65536 ≠ (c0 ||| (c1 <<< 8))
      then .error corruptErr
      else .ok ⟨if flg &&& FEXTRA ≠ 0 then some ex else none,
                if flg &&& FNAME ≠ 0 then some nm else none,
                if flg &&& FCOMMENT ≠ 0 then some cm else none,
                os, m0 ||| (m1 <<< 8) ||| (m2 <<< 16) ||| (m3 <<< 24)⟩ := by
  subst hex hnmseg hcmseg
  by_cases hE : flg &&& FEXTRA = 0 <;> by_cases hN : flg &&& FNAME = 0 <;>
    by_cases hC : flg &&& FCOMMENT = 0
  · unfold read_gz_header
    rw [readExact_chunk [] [] _ 10
      (by simp only [List.cons_append, List.length_cons]; omega) (by simp)]
    simp only [List.cons_append, List.append_assoc, List.singleton_append,
      List.take_succ_cons, List.take_zero, List.drop_succ_cons,
      List.drop_zero, List.nil_append, List.append_nil, andThen,
      reduceCtorEq, if_false, List.getD_cons_zero, List.getD_cons_succ,
      hE, hN, hC, hflg]
    norm_num [hflg, hE, hN, hC]
    try simp only [reduceCtorEq, and_false, if_false]
    rw [read_le_u16_chunk]
    try dsimp only
    try simp only [List.append_assoc, List.cons_append, List.nil_append,
      List.singleton_append]
    split
    · next h => simp [h]
    · next h => simp [h]
  · unfold read_gz_header
    rw [readExact_chunk [] [] _ 10
      (by simp only [List.cons_append, List.length_cons]; omega) (by simp)]
    simp only [List.cons_append, List.append_assoc, List.singleton_append,
      List.take_succ_cons, List.take_zero, List.drop_succ_cons,
      List.drop_zero, List.nil_append, List.append_nil, andThen,
      reduceCtorEq, if_false, List.getD_cons_zero, List.getD_cons_succ,
      hE, hN, hC, hflg]
    norm_num [hflg, hE, hN, hC]
    try simp only [reduceCtorEq, and_false, if_false]
    rw [scanZero_chunk [31, 139, 8, flg, m0, m1, m2, m3, xfl, os] [31, 139, 8, flg, m0, m1, m2, m3, xfl, os] [] cm ((c0 :: c1 :: rest)) h0cm (by simp)]
    try dsimp only
    rw [read_le_u16_chunk]
    try dsimp only
    try simp only [List.append_assoc, List.cons_append, List.nil_append,
      List.singleton_append]
    split
    · next h => simp [h]
    · next h => simp [h]
  · unfold read_gz_header
    rw [readExact_chunk [] [] _ 10
      (by simp only [List.cons_append, List.length_cons]; omega) (by simp)]
    simp only [List.cons_append, List.append_assoc, List.singleton_append,
      List.take_succ_cons, List.take_zero, List.drop_succ_cons,
      List.drop_zero, List.nil_append, List.append_nil, andThen,
      reduceCtorEq, if_false, List.getD_cons_zero, List.getD_cons_succ,
      hE, hN, hC, hflg]
    norm_num [hflg, hE, hN, hC]
    try simp only [reduceCtorEq, and_false, if_false]
    rw [scanZero_chunk [31, 139, 8, flg, m0, m1, m2, m3, xfl, os] [31, 139, 8, flg, m0, m1, m2, m3, xfl, os] [] nm ((c0 :: c1 :: rest)) h0nm (by simp)]
    try dsimp only
    rw [read_le_u16_chunk]
    try dsimp only
    try simp only [List.append_assoc, List.cons_append, List.nil_append,
      List.singleton_append]
    split
    · next h => simp [h]
    · next h => simp [h]
  · unfold read_gz_header
    rw [readExact_chunk [] [] _ 10
      (by simp only [List.cons_append, List.length_cons]; omega) (by simp)]
    simp only [List.cons_append, List.append_assoc, List.singleton_append,
      List.take_succ_cons, List.take_zero, List.drop_succ_cons,
      List.drop_zero, List.nil_append, List.append_nil, andThen,
      reduceCtorEq, if_false, List.getD_cons_zero, List.getD_cons_succ,
      hE, hN, hC, hflg]
    norm_num [hflg, hE, hN, hC]
    try simp only [reduceCtorEq, and_false, if_false]
    rw [scanZero_chunk [31, 139, 8, flg, m0, m1, m2, m3, xfl, os] [31, 139, 8, flg, m0, m1, m2, m3, xfl, os] [] nm ((cm ++ 0 :: c0 :: c1 :: rest)) h0nm (by simp)]
    try dsimp only
    rw [scanZero_chunk ([31, 139, 8, flg, m0, m1, m2, m3, xfl, os] ++ nm ++ [0]) ([31, 139, 8, flg, m0, m1, m2, m3, xfl, os] ++ nm ++ [0]) [] cm ((c0 :: c1 :: rest)) h0cm (by simp)]
    try dsimp only
    rw [read_le_u16_chunk]
    try dsimp only
    try simp only [List.append_assoc, List.cons_append, List.nil_append,
      List.singleton_append]
    split
    · next h => simp [h]
    · next h => simp [h]
  · unfold read_gz_header
    rw [readExact_chunk [] [] _ 10
      (by simp only [List.cons_append, List.length_cons]; omega) (by simp)]
    simp only [List.cons_append, List.append_assoc, List.singleton_append,
      List.take_succ_cons, List.take_zero, List.drop_succ_cons,
      List.drop_zero, List.nil_append, List.append_nil, andThen,
      reduceCtorEq, if_false, List.getD_cons_zero, List.getD_cons_succ,
      hE, hN, hC, hflg]
    norm_num [hflg, hE, hN, hC]
    try simp only [reduceCtorEq, and_false, if_false]
    rw [read_le_u16_chunk]
    dsimp only
    rw [← hxl]
    rw [if_neg (by simp : ¬ (ex ++ (c0 :: c1 :: rest) = []))]
    rw [readExact_chunk ([31, 139, 8, flg, m0, m1, m2, m3, xfl, os] ++ [xl0, xl1]) ([31, 139, 8, flg, m0, m1, m2, m3, xfl, os] ++ [xl0, xl1]) (ex ++ (c0 :: c1 :: rest)) ex.length
      (by simp only [List.length_append]; omega) (by simp)]
    simp only [List.take_left, List.drop_left]
    rw [if_neg (by simp : ¬ (c0 :: c1 :: rest = []))]
    rw [read_le_u16_chunk]
    try dsimp only
    try simp only [List.append_assoc, List.cons_append, List.nil_append,
      List.singleton_append]
    split
    · next h => simp [h]
    · next h => simp [h]
  · unfold read_gz_header
    rw [readExact_chunk [] [] _ 10
      (by simp only [List.cons_append, List.length_cons]; omega) (by simp)]
    simp only [List.cons_append, List.append_assoc, List.singleton_append,
      List.take_succ_cons, List.take_zero, List.drop_succ_cons,
      List.drop_zero, List.nil_append, List.append_nil, andThen,
      reduceCtorEq, if_false, List.getD_cons_zero, List.getD_cons_succ,
      hE, hN, hC, hflg]
    norm_num [hflg, hE, hN, hC]
    try simp only [reduceCtorEq, and_false, if_false]
    rw [read_le_u16_chunk]
    dsimp only
    rw [← hxl]
    rw [if_neg (by simp : ¬ (ex ++ (cm ++ 0 :: c0 :: c1 :: rest) = []))]
    rw [readExact_chunk ([31, 139, 8, flg, m0, m1, m2, m3, xfl, os] ++ [xl0, xl1]) ([31, 139, 8, flg, m0, m1, m2, m3, xfl, os] ++ [xl0, xl1]) (ex ++ (cm ++ 0 :: c0 :: c1 :: rest)) ex.length
      (by simp only [List.length_append]; omega) (by simp)]
    simp only [List.take_left, List.drop_left]
    rw [if_neg (by simp : ¬ (cm ++ 0 :: (c0 :: c1 :: rest) = []))]
    rw [scanZero_chunk (([31, 139, 8, flg, m0, m1, m2, m3, xfl, os] ++ [xl0, xl1]) ++ ex) (([31, 139, 8, flg, m0, m1, m2, m3, xfl, os] ++ [xl0, xl1]) ++ ex) [] cm ((c0 :: c1 :: rest)) h0cm (by simp)]
    try dsimp only
    rw [read_le_u16_chunk]
    try dsimp only
    try simp only [List.append_assoc, List.cons_append, List.nil_append,
      List.singleton_append]
    split
    · next h => simp [h]
    · next h => simp [h]
  · unfold read_gz_header
    rw [readExact_chunk [] [] _ 10
      (by simp only [List.cons_append, List.length_cons]; omega) (by simp)]
    simp only [List.cons_append, List.append_assoc, List.singleton_append,
      List.take_succ_cons, List.take_zero, List.drop_succ_cons,
      List.drop_zero, List.nil_append, List.append_nil, andThen,
      reduceCtorEq, if_false, List.getD_cons_zero, List.getD_cons_succ,
      hE, hN, hC, hflg]
    norm_num [hflg, hE, hN, hC]
    try simp only [reduceCtorEq, and_false, if_false]
    rw [read_le_u16_chunk]
    dsimp only
    rw [← hxl]
    rw [if_neg (by simp : ¬ (ex ++ (nm ++ 0 :: c0 :: c1 :: rest) = []))]
    rw [readExact_chunk ([31, 139, 8, flg, m0, m1, m2, m3, xfl, os] ++ [xl0, xl1]) ([31, 139, 8, flg, m0, m1, m2, m3, xfl, os] ++ [xl0, xl1]) (ex ++ (nm ++ 0 :: c0 :: c1 :: rest)) ex.length
      (by simp only [List.length_append]; omega) (by simp)]
    simp only [List.take_left, List.drop_left]
    rw [if_neg (by simp : ¬ (nm ++ 0 :: (c0 :: c1 :: rest) = []))]
    rw [scanZero_chunk (([31, 139, 8, flg, m0, m1, m2, m3, xfl, os] ++ [xl0, xl1]) ++ ex) (([31, 139, 8, flg, m0, m1, m2, m3, xfl, os] ++ [xl0, xl1]) ++ ex) [] nm ((c0 :: c1 :: rest)) h0nm (by simp)]
    try dsimp only
    rw [read_le_u16_chunk]
    try dsimp only
    try simp only [List.append_assoc, List.cons_append, List.nil_append,
      List.singleton_append]
    split
    · next h => simp [h]
    · next h => simp [h]
  · unfold read_gz_header
    rw [readExact_chunk [] [] _ 10
      (by simp only [List.cons_append, List.length_cons]; omega) (by simp)]
    simp only [List.cons_append, List.append_assoc, List.singleton_append,
      List.take_succ_cons, List.take_zero, List.drop_succ_cons,
      List.drop_zero, List.nil_append, List.append_nil, andThen,
      reduceCtorEq, if_false, List.getD_cons_zero, List.getD_cons_succ,
      hE, hN, hC, hflg]
    norm_num [hflg, hE, hN, hC]
    try simp only [reduceCtorEq, and_false, if_false]
    rw [read_le_u16_chunk]
    dsimp only
    rw [← hxl]
    rw [if_neg (by simp : ¬ (ex ++ (nm ++ 0 :: (cm ++ 0 :: c0 :: c1 :: rest)) = []))]
    rw [readExact_chunk ([31, 139, 8, flg, m0, m1, m2, m3, xfl, os] ++ [xl0, xl1]) ([31, 139, 8, flg, m0, m1, m2, m3, xfl, os] ++ [xl0, xl1]) (ex ++ (nm ++ 0 :: (cm ++ 0 :: c0 :: c1 :: rest))) ex.length
      (by simp only [List.length_append]; omega) (by simp)]
    simp only [List.take_left, List.drop_left]
    rw [if_neg (by simp : ¬ (nm ++ 0 :: (cm ++ 0 :: c0 :: c1 :: rest) = []))]
    rw [scanZero_chunk (([31, 139, 8, flg, m0, m1, m2, m3, xfl, os] ++ [xl0, xl1]) ++ ex) (([31, 139, 8, flg, m0, m1, m2, m3, xfl, os] ++ [xl0, xl1]) ++ ex) [] nm ((cm ++ 0 :: c0 :: c1 :: rest)) h0nm (by simp)]
    try dsimp only
    rw [scanZero_chunk ((([31, 139, 8, flg, m0, m1, m2, m3, xfl, os] ++ [xl0, xl1]) ++ ex) ++ nm ++ [0]) ((([31, 139, 8, flg, m0, m1, m2, m3, xfl, os] ++ [xl0, xl1]) ++ ex) ++ nm ++ [0]) [] cm ((c0 :: c1 :: rest)) h0cm (by simp)]
    try dsimp only
    rw [read_le_u16_chunk]
    try dsimp only
    try simp only [List.append_assoc, List.cons_append, List.nil_append,
      List.singleton_append]
    split
    · next h => simp [h]
    · next h => simp [h]

theorem c8_fhcrc_check_witness :
    (read_gz_header ⟨0, 0, [],
      [.chunk (0x1f :: 0x8b :: 8 :: 2 :: 0 :: 0 :: 0 :: 0 :: 0 :: 255 ::
        (([] : List Nat) ++ ([] : List Nat) ++ ([] : List Nat) ++
          144 :: 201 :: []))], []⟩).1 =
      if (crc32 (0x1f :: 0x8b :: 8 :: 2 :: 0 :: 0 :: 0 :: 0 :: 0 :: 255 ::
            (([] : List Nat) ++ ([] : List Nat) ++ ([] : List Nat)))) %
          65536 ≠ (144 ||| (201 <<< 8))
      then .error corruptErr
      else .ok ⟨if 2 &&& FEXTRA ≠ 0 then some [] else none,
                if 2 &&& FNAME ≠ 0 then some [] else none,
                if 2 &&& FCOMMENT ≠ 0 then some [] else none,
                255, 0 ||| (0 <<< 8) ||| (0 <<< 16) ||| (0 <<< 24)⟩ :=
  c8_fhcrc_check 2 0 0 0 0 0 255 0 0 144 201 [] [] [] [] [] [] []
    (by decide) (by decide) (by decide) (by decide) (by decide)
    (by decide) (by decide)
